import Mathlib

/-!
Verification of the change-propagation core of this repository: the array
mutation interceptor (`src/core/observer/array.js`), the update scheduler
(`src/core/observer/scheduler.js`) and the deferred-unit (async component)
resolver (`src/core/vdom/helpers/resolve-async-component.js`), shallowly
embedded as pure state-passing Lean functions.

Modelling conventions:
- JS objects keyed by watcher id (`has`, `circular`) become functions
  `Nat → Bool` / `Nat → Nat`.
- Watchers are identified by their numeric id; a watcher's `run()` body is
  abstracted by an environment `Nat → List Nat` listing the ids that the run
  synchronously enqueues (the only scheduler-visible effect of a run).
- External collaborator hooks with no scheduler-visible effect
  (`watcher.before`, `callUpdatedHooks`, `callActivatedHooks`, devtools) are
  omitted; `warn` calls are recorded in an observation log.
- The diagnostic (non-production) build is modelled, since the circular-update
  guard in `flushSchedulerQueue` exists only there.
- The flush loop of the scheduler can genuinely diverge for pathological run
  environments, so it takes explicit fuel; theorems show the results are
  fuel-independent once the fuel is large enough.
-/

namespace VueCore

/-! ## Mutation interceptor (`src/core/observer/array.js`)

An observed array is the underlying list plus an observation log recording
each `ob.observeArray(inserted)` call and the number of `ob.dep.notify()`
calls. -/

/-- An observed JS array: the element list, the log of element batches passed
to `observeArray`, and the count of `dep.notify()` invocations. -/
structure Observed (V : Type) where
  arr : List V
  observedLog : List (List V)
  notifyCount : Nat
  deriving Repr, DecidableEq

/-- The shared body of every patched mutator in `array.js`: run the native
operation first, capture its result, observe the inserted elements (if the
method has any), then notify the dep exactly once, and return the native
result unchanged. -/
def interceptMutation {V R : Type} (original : List V → R × List V)
    (inserted : Option (List V)) (s : Observed V) : R × Observed V :=
  let r := original s.arr
  let s1 : Observed V := { s with arr := r.2 }
  let s2 : Observed V :=
    match inserted with
    | some ins => { s1 with observedLog := s1.observedLog ++ [ins] }
    | none => s1
  (r.1, { s2 with notifyCount := s2.notifyCount + 1 })

/-- Native `Array.prototype.push`: appends all arguments, returns the new
length. -/
def nativePush {V : Type} (args : List V) (l : List V) : Nat × List V :=
  (l.length + args.length, l ++ args)

/-- Native `Array.prototype.pop`: removes and returns the last element
(`undefined`, i.e. `none`, on an empty array). -/
def nativePop {V : Type} (l : List V) : Option V × List V :=
  (l.getLast?, l.dropLast)

/-- Native `Array.prototype.shift`: removes and returns the first element. -/
def nativeShift {V : Type} (l : List V) : Option V × List V :=
  (l.head?, l.tail)

/-- Native `Array.prototype.unshift`: prepends all arguments, returns the new
length. -/
def nativeUnshift {V : Type} (args : List V) (l : List V) : Nat × List V :=
  (args.length + l.length, args ++ l)

/-- JS `splice` start-index normalisation: negative indices count from the
end, clamped into `[0, len]`. -/
def jsNormStart (len : Nat) (start : Int) : Nat :=
  if start < 0 then (max ((len : Int) + start) 0).toNat else min start.toNat len

/-- JS `splice` delete-count normalisation: omitted means "to the end",
otherwise clamped into `[0, len - actualStart]`. -/
def jsNormDeleteCount (len actualStart : Nat) (deleteCount : Option Int) : Nat :=
  match deleteCount with
  | none => len - actualStart
  | some d => min (max d 0).toNat (len - actualStart)

/-- Native `Array.prototype.splice`: removes `deleteCount` elements at
`start`, inserts `items` there, and returns the removed elements. -/
def nativeSplice {V : Type} (start : Int) (deleteCount : Option Int)
    (items : List V) (l : List V) : List V × List V :=
  let s := jsNormStart l.length start
  let n := jsNormDeleteCount l.length s deleteCount
  ((l.drop s).take n, l.take s ++ items ++ l.drop (s + n))

/-- Native `Array.prototype.reverse`: reverses in place and returns the
array itself. -/
def nativeReverse {V : Type} (l : List V) : List V × List V :=
  (l.reverse, l.reverse)

/-- Native `Array.prototype.sort` with a comparator: sorts in place and
returns the array itself. -/
def nativeSort {V : Type} (le : V → V → Bool) (l : List V) : List V × List V :=
  let sorted := List.insertionSort (fun a b => le a b = true) l
  (sorted, sorted)

/-- Patched `push`: `inserted = args`. -/
def pushObs {V : Type} (args : List V) (s : Observed V) : Nat × Observed V :=
  interceptMutation (nativePush args) (some args) s

/-- Patched `pop`: nothing inserted. -/
def popObs {V : Type} (s : Observed V) : Option V × Observed V :=
  interceptMutation nativePop none s

/-- Patched `shift`: nothing inserted. -/
def shiftObs {V : Type} (s : Observed V) : Option V × Observed V :=
  interceptMutation nativeShift none s

/-- Patched `unshift`: `inserted = args`. -/
def unshiftObs {V : Type} (args : List V) (s : Observed V) : Nat × Observed V :=
  interceptMutation (nativeUnshift args) (some args) s

/-- Patched `splice`: `inserted = args.slice(2)`, i.e. exactly the items
being inserted, not the start index or removal count. -/
def spliceObs {V : Type} (start : Int) (deleteCount : Option Int)
    (items : List V) (s : Observed V) : List V × Observed V :=
  interceptMutation (nativeSplice start deleteCount items) (some items) s

/-- Patched `sort`: nothing inserted. -/
def sortObs {V : Type} (le : V → V → Bool) (s : Observed V) :
    List V × Observed V :=
  interceptMutation (nativeSort le) none s

/-- Patched `reverse`: nothing inserted. -/
def reverseObs {V : Type} (s : Observed V) : List V × Observed V :=
  interceptMutation nativeReverse none s

/-! ## Update scheduler (`src/core/observer/scheduler.js`) -/

/-- `MAX_UPDATE_COUNT` from `scheduler.js`. -/
def MAX_UPDATE_COUNT : Nat := 100

/-- A run environment: for each watcher id, the list of watcher ids its
`run()` synchronously enqueues via `queueWatcher`, in order. -/
def RunEnv : Type := Nat → List Nat

/-- The scheduler's module-level state, plus two observation logs: `runs`
records each `watcher.run()` invocation (by id, in order) and `warned`
records each infinite-update-loop diagnostic (by the offending watcher id). -/
@[ext]
structure Sched where
  queue : List Nat
  has : Nat → Bool
  circular : Nat → Nat
  waiting : Bool
  flushing : Bool
  index : Nat
  runs : List Nat
  warned : List Nat

/-- The scheduler's initial (idle) state. -/
def initSched : Sched :=
  { queue := [], has := fun _ => false, circular := fun _ => 0,
    waiting := false, flushing := false, index := 0, runs := [], warned := [] }

/-- Insert `a` at position `pos` of `l` (JS `l.splice(pos, 0, a)`). -/
def insertAt {α : Type} (l : List α) (pos : Nat) (a : α) : List α :=
  l.take pos ++ a :: l.drop pos

/-- The backward scan of `queueWatcher`'s flushing branch:
`let i = queue.length - 1; while (i > index && queue[i].id > watcher.id) i--`,
returning the final `i`.  The last argument is the current value of `i`. -/
def spliceScan (q : List Nat) (index wid : Nat) : Nat → Nat
  | 0 => 0
  | i + 1 =>
    if i + 1 > index ∧ q.getD (i + 1) 0 > wid then spliceScan q index wid i
    else i + 1

/-- `queueWatcher` from `scheduler.js`: skip ids already in `has`; otherwise
mark the id present and either append (not flushing) or splice into the
sorted position after the backward scan (flushing); finally set `waiting`
(the `nextTick(flushSchedulerQueue)` registration itself is external). -/
def queueWatcher (w : Nat) (s : Sched) : Sched :=
  if s.has w then s
  else
    let s1 : Sched := { s with has := fun n => if n = w then true else s.has n }
    let s2 : Sched :=
      if s1.flushing then
        let i := spliceScan s1.queue s1.index w (s1.queue.length - 1)
        { s1 with queue := insertAt s1.queue (i + 1) w }
      else { s1 with queue := s1.queue ++ [w] }
    if s2.waiting then s2 else { s2 with waiting := true }

/-- One `queueWatcher` call per id of `l`, in order. -/
def enqueueAll (l : List Nat) (s : Sched) : Sched :=
  l.foldl (fun st w => queueWatcher w st) s

/-- The outcome of one iteration of the flush loop: continue with the next
cursor position, or leave the loop (cursor past the end, or the
infinite-update guard's `break`). -/
inductive IterRes where
  | cont (s : Sched)
  | stop (s : Sched)

/-- One iteration of the `for (index = 0; index < queue.length; index++)`
loop of `flushSchedulerQueue`: clear the watcher's `has` entry, log and
perform its run (enqueueing `env id`), then apply the diagnostic-build
circular-update check: if the id was re-queued during its own run, bump its
circular counter, and once the counter exceeds `MAX_UPDATE_COUNT` record the
diagnostic and break. -/
def flushIter (env : RunEnv) (s : Sched) : IterRes :=
  if h : s.index < s.queue.length then
    let w := s.queue.get ⟨s.index, h⟩
    let s1 : Sched :=
      { s with has := fun n => if n = w then false else s.has n,
               runs := s.runs ++ [w] }
    let s2 := enqueueAll (env w) s1
    if s2.has w then
      let c := s2.circular w + 1
      let s3 : Sched :=
        { s2 with circular := fun n => if n = w then c else s2.circular n }
      if c > MAX_UPDATE_COUNT then .stop { s3 with warned := s3.warned ++ [w] }
      else .cont { s3 with index := s3.index + 1 }
    else .cont { s2 with index := s2.index + 1 }
  else .stop s

/-- The flush loop, with explicit fuel (the source loop can genuinely diverge
for run environments that keep enqueueing fresh ids). -/
def flushLoop (env : RunEnv) : Nat → Sched → Sched
  | 0, s => s
  | fuel + 1, s =>
    match flushIter env s with
    | .stop s1 => s1
    | .cont s1 => flushLoop env fuel s1

/-- `flushSchedulerQueue` from `scheduler.js`: set `flushing`, sort the queue
ascending by id, run the loop, then `resetSchedulerState` (clear queue, `has`,
circular counters, flags and cursor).  The post-flush `updated`/`activated`
hooks and the devtools event are external collaborators and omitted. -/
def flushSchedulerQueue (env : RunEnv) (fuel : Nat) (s : Sched) : Sched :=
  let s1 : Sched := { s with flushing := true }
  let s2 : Sched := { s1 with queue := List.insertionSort (· ≤ ·) s1.queue }
  let s3 := flushLoop env fuel { s2 with index := 0 }
  { s3 with index := 0, queue := [], has := fun _ => false,
            circular := fun _ => 0, waiting := false, flushing := false }

/-- Enqueue the ids of `l` from the idle scheduler, then flush (the deferred
tick firing `flushSchedulerQueue`). -/
def schedRun (env : RunEnv) (fuel : Nat) (l : List Nat) : Sched :=
  flushSchedulerQueue env fuel (enqueueAll l initSched)

/-- The queue that `queueWatcher` accumulates outside of a flush: `l` with
every id kept at its first occurrence only. -/
def dedupFirst (l : List Nat) : List Nat :=
  l.foldl (fun acc w => if w ∈ acc then acc else acc ++ [w]) []

/-- The run environment in which no watcher enqueues anything. -/
def emptyEnv : RunEnv := fun _ => []

/-- The run environment in which every watcher's `run()` unconditionally
re-enqueues the watcher itself. -/
def selfEnv : RunEnv := fun n => [n]

/-- The run environment of the spec's mid-flush example: watcher 5's run
enqueues a watcher with id 2 and then one with id 8; no other watcher
enqueues anything. -/
def midFlushEnv : RunEnv := fun n => if n = 5 then [2, 8] else []

/-- Scheduler state at the start of flush-loop iteration `n` (0-based) when
flushing the single self-re-enqueueing watcher `w` under `selfEnv`: each
completed iteration has appended one copy of `w` to the queue and to the run
log and bumped `w`'s circular counter once. -/
def selfState (w n : Nat) : Sched :=
  { queue := List.replicate (n + 1) w,
    has := fun m => if m = w then true else false,
    circular := fun m => if m = w then n else 0,
    waiting := true, flushing := true, index := n,
    runs := List.replicate n w, warned := [] }

/-- Scheduler state at the moment the infinite-update guard breaks out of the
flush loop for the self-re-enqueueing watcher `w`: 101 runs have happened,
the queue holds 102 pending copies, and the diagnostic names `w`. -/
def selfFinal (w : Nat) : Sched :=
  { queue := List.replicate 102 w,
    has := fun m => if m = w then true else false,
    circular := fun m => if m = w then 101 else 0,
    waiting := true, flushing := true, index := 100,
    runs := List.replicate 101 w, warned := [w] }

/-- A concrete mid-flush scheduler state: the flush loop is executing watcher
id 5 (cursor 0) with watcher id 9 still pending behind it. -/
def exFlushState : Sched :=
  { queue := [5, 9], has := fun _ => false, circular := fun _ => 0,
    waiting := true, flushing := true, index := 0, runs := [5], warned := [] }

/-! ## Deferred-unit resolver (`src/core/vdom/helpers/resolve-async-component.js`)

Consumers (rendering contexts) are identified by numeric ids.  A value passed
to the `resolve` callback is a `ResVal`; `ensureCtor` normalises it into a
component `Comp`, with `Comp.extended v` standing for `baseCtor.extend(v)`. -/

/-- A value handed to the resolver's completion callback: an ES-module
namespace object wrapping a default export, a plain options object
(`isObject` true), or an already-built constructor (`isObject` false). -/
inductive ResVal where
  | esModule (d : ResVal)
  | options (n : Nat)
  | ctorVal (n : Nat)
  deriving Repr, DecidableEq

/-- JS `isObject` on a `ResVal`. -/
def isObjectV : ResVal → Bool
  | .esModule _ => true
  | .options _ => true
  | .ctorVal _ => false

/-- A normalised component: either the result of `baseCtor.extend` on an
options object, or a value used as-is. -/
inductive Comp where
  | extended (v : ResVal)
  | raw (v : ResVal)
  deriving Repr, DecidableEq

/-- `ensureCtor` from `resolve-async-component.js`: unwrap a module-style
default export (one level), then `base.extend` the value if it is a plain
object, else use it unchanged. -/
def ensureCtor (c : ResVal) : Comp :=
  let c2 := match c with
    | .esModule d => d
    | x => x
  if isObjectV c2 then .extended c2 else .raw c2

/-- The mutable state stored on the factory function object. Boolean fields
model JS fields that are either `undefined` (false) or `true`. -/
structure Factory where
  error : Bool
  errorComp : Option Comp
  resolved : Option Comp
  loading : Bool
  loadingComp : Option Comp
  contexts : Option (List Nat)
  deriving Repr, DecidableEq

/-- A fresh factory: every field `undefined`. -/
def initFactory : Factory :=
  { error := false, errorComp := none, resolved := none,
    loading := false, loadingComp := none, contexts := none }

/-- The resolver's full runtime state for one factory: the factory fields,
the closure flag `sync`, the run-once guards of the `resolve`/`reject`
closures, whether a promise settlement is chained to them, the pending
delay/timeout timers (holding their configured durations), and observation
logs: `forceUpdates` records each `$forceUpdate()` call by consumer id,
`warns` counts `warn` diagnostics, `producerCalls` counts invocations of the
factory function itself. -/
structure RState where
  f : Factory
  sync : Bool
  resolveUsed : Bool
  rejectUsed : Bool
  chained : Bool
  delayTimer : Option Nat
  timeoutTimer : Option Nat
  forceUpdates : List Nat
  warns : Nat
  producerCalls : Nat
  deriving Repr, DecidableEq

/-- The resolver state before any `resolveAsyncComponent` call. -/
def initRState : RState :=
  { f := initFactory, sync := false, resolveUsed := false, rejectUsed := false,
    chained := false, delayTimer := none, timeoutTimer := none,
    forceUpdates := [], warns := 0, producerCalls := 0 }

/-- The `forceRender` closure: `$forceUpdate()` every pending context, and
clear the context list only when `renderCompleted` is true. -/
def forceRender (renderCompleted : Bool) (s : RState) : RState :=
  let s1 : RState := { s with forceUpdates := s.forceUpdates ++ s.f.contexts.getD [] }
  if renderCompleted then { s1 with f := { s1.f with contexts := some [] } }
  else s1

/-- The `once`-wrapped `resolve` closure: on its first invocation, cache
`ensureCtor res` as `factory.resolved`; then force-render every pending
consumer if the call is asynchronous, else just clear the context list. -/
def resolve (res : ResVal) (s : RState) : RState :=
  if s.resolveUsed then s
  else
    let s1 : RState :=
      { s with resolveUsed := true,
               f := { s.f with resolved := some (ensureCtor res) } }
    if s1.sync then { s1 with f := { s1.f with contexts := some [] } }
    else forceRender true s1

/-- The `once`-wrapped `reject` closure: on its first invocation, warn; then,
only if an error component was supplied, set `factory.error` and
force-render every pending consumer. -/
def reject (s : RState) : RState :=
  if s.rejectUsed then s
  else
    let s1 : RState := { s with rejectUsed := true, warns := s.warns + 1 }
    if s1.f.errorComp.isSome then
      forceRender true { s1 with f := { s1.f with error := true } }
    else s1

/-- A synchronous action the factory body performs before returning: calling
the supplied `resolve` or `reject` callback. -/
inductive SyncAct where
  | res (v : ResVal)
  | rej
  deriving Repr, DecidableEq

/-- The shape of the factory's return value: a non-object (or an object that
is neither promise-like nor has a promise-like `component` field), a bare
promise, or a resource descriptor `{ component, error?, loading?, delay?,
timeout? }` whose `component` field is promise-like. -/
inductive Ret where
  | nonObject
  | promise
  | descriptor (err : Option ResVal) (load : Option ResVal)
      (delay : Option Nat) (timeout : Option Nat)
  deriving Repr, DecidableEq

/-- A producer (async component factory): its synchronous callback
invocations, in order, followed by its return value shape. -/
structure Producer where
  acts : List SyncAct
  ret : Ret
  deriving Repr, DecidableEq

/-- Run the factory body's synchronous callback invocations. -/
def runActs (acts : List SyncAct) (s : RState) : RState :=
  acts.foldl (fun st a => match a with
    | .res v => resolve v st
    | .rej => reject st) s

/-- Process the factory's return value `res` (the `isObject(res)` block):
chain a bare promise to `resolve`/`reject` only if nothing resolved
synchronously; for a descriptor, chain its `component` promise, record the
error substitute, handle the loading substitute (`delay === 0` sets
`factory.loading` immediately, otherwise a `res.delay || 200` timer is
scheduled), and schedule the timeout timer if a timeout is given. -/
def handleRet (ret : Ret) (s : RState) : RState :=
  match ret with
  | .nonObject => s
  | .promise => if s.f.resolved.isNone then { s with chained := true } else s
  | .descriptor err load delay timeout =>
    let s1 : RState := { s with chained := true }
    let s2 : RState :=
      match err with
      | some e => { s1 with f := { s1.f with errorComp := some (ensureCtor e) } }
      | none => s1
    let s3 : RState :=
      match load with
      | some lv =>
        let sl : RState :=
          { s2 with f := { s2.f with loadingComp := some (ensureCtor lv) } }
        if delay = some 0 then { sl with f := { sl.f with loading := true } }
        else
          { sl with delayTimer := some (match delay with
              | some d => if d = 0 then 200 else d
              | none => 200) }
      | none => s2
    match timeout with
    | some t => { s3 with timeoutTimer := some t }
    | none => s3

/-- `resolveAsyncComponent`: the four early-return checks (errored with error
component, resolved, loading with loading component, already pending), then
the first-request path: register the sole pending context, create the
closures with `sync = true`, invoke the factory (its synchronous actions,
then its return-value handling), drop `sync`, and return the loading
component if loading, else whatever is resolved. -/
def resolveAsyncComponent (p : Producer) (context : Nat) (s : RState) :
    RState × Option Comp :=
  if s.f.error ∧ s.f.errorComp.isSome then (s, s.f.errorComp)
  else if s.f.resolved.isSome then (s, s.f.resolved)
  else if s.f.loading ∧ s.f.loadingComp.isSome then (s, s.f.loadingComp)
  else if s.f.contexts.isSome then
    ({ s with f := { s.f with contexts := some (s.f.contexts.getD [] ++ [context]) } },
     none)
  else
    let s1 : RState :=
      { s with f := { s.f with contexts := some [context] }, sync := true,
               producerCalls := s.producerCalls + 1 }
    let s2 := runActs p.acts s1
    let s3 := handleRet p.ret s2
    let s4 : RState := { s3 with sync := false }
    (s4, if s4.f.loading then s4.f.loadingComp else s4.f.resolved)

/-- An asynchronous event re-entering the resolver: settlement of the chained
promise (fulfilment or rejection), the loading-delay timer firing, the
timeout timer firing, or a further consumer requesting the unit. -/
inductive Ev where
  | settleRes (v : ResVal)
  | settleRej
  | delayFired
  | timeoutFired
  | request (context : Nat)
  deriving Repr, DecidableEq

/-- One asynchronous event step.  Settlements act only if a promise was
chained; each timer fires at most once (its slot is consumed) and re-checks
the factory state exactly as the `setTimeout` bodies do. -/
def step (p : Producer) (s : RState) : Ev → RState
  | .settleRes v => if s.chained then resolve v s else s
  | .settleRej => if s.chained then reject s else s
  | .delayFired =>
    match s.delayTimer with
    | some _ =>
      let s1 : RState := { s with delayTimer := none }
      if s1.f.resolved.isNone ∧ s1.f.error = false then
        forceRender false { s1 with f := { s1.f with loading := true } }
      else s1
    | none => s
  | .timeoutFired =>
    match s.timeoutTimer with
    | some _ =>
      let s1 : RState := { s with timeoutTimer := none }
      if s1.f.resolved.isNone then reject s1 else s1
    | none => s
  | .request c => (resolveAsyncComponent p c s).1

/-- Run a sequence of asynchronous events. -/
def runEvs (p : Producer) (evs : List Ev) (s : RState) : RState :=
  evs.foldl (step p) s

/-- A producer that returns a bare promise and performs no synchronous
callback invocation (the plain `() => import(..)` factory shape). -/
def promProducer : Producer := ⟨[], .promise⟩

/-- A producer that synchronously invokes the failure callback and returns a
non-object, with no error substitute anywhere. -/
def rejProducer : Producer := ⟨[.rej], .nonObject⟩

/-- A producer that synchronously invokes the completion callback with a
constructor value and returns a descriptor carrying an error substitute
(whose `component` promise is chained to the callbacks). -/
def resThenRejProducer : Producer :=
  ⟨[.res (.ctorVal 1)], .descriptor (some (.options 2)) none none none⟩

/-- A descriptor producer with a loading substitute and `delay: 0`. -/
def delay0Producer : Producer :=
  ⟨[], .descriptor none (some (.options 5)) (some 0) none⟩

/-- A descriptor producer with a loading substitute and `delay: 50`, and no
error substitute. -/
def delay50Producer : Producer :=
  ⟨[], .descriptor none (some (.options 5)) (some 50) none⟩

/-- A fresh resolver state whose factory already carries an error
substitute. -/
def errState : RState :=
  { initRState with
    f := { initFactory with errorComp := some (Comp.raw (ResVal.ctorVal 9)) } }

/-! ## Scheduler lemmas -/

theorem queueWatcher_skip (s : Sched) (w : Nat) (h : s.has w = true) :
    queueWatcher w s = s := by
  simp [queueWatcher, h]

theorem queueWatcher_fields (s : Sched) (w : Nat) (hw : s.has w = false)
    (hf : s.flushing = false) :
    (queueWatcher w s).queue = s.queue ++ [w]
    ∧ (∀ n, (queueWatcher w s).has n = if n = w then true else s.has n)
    ∧ (queueWatcher w s).flushing = false
    ∧ (queueWatcher w s).index = s.index
    ∧ (queueWatcher w s).runs = s.runs
    ∧ (queueWatcher w s).warned = s.warned
    ∧ (queueWatcher w s).circular = s.circular := by
  by_cases hwait : s.waiting = true
  · simp [queueWatcher, hw, hf, hwait]
  · simp only [Bool.not_eq_true] at hwait
    simp [queueWatcher, hw, hf, hwait]

theorem enqueueAll_not_flushing (l : List Nat) (s : Sched)
    (hf : s.flushing = false)
    (hh : ∀ n, s.has n = decide (n ∈ s.queue)) :
    (enqueueAll l s).queue
        = l.foldl (fun acc w => if w ∈ acc then acc else acc ++ [w]) s.queue
    ∧ (∀ n, (enqueueAll l s).has n = decide (n ∈ (enqueueAll l s).queue))
    ∧ (enqueueAll l s).flushing = false
    ∧ (enqueueAll l s).index = s.index
    ∧ (enqueueAll l s).runs = s.runs
    ∧ (enqueueAll l s).warned = s.warned
    ∧ (enqueueAll l s).circular = s.circular := by
  induction l generalizing s with
  | nil => exact ⟨rfl, hh, hf, rfl, rfl, rfl, rfl⟩
  | cons w l ih =>
    by_cases hw : s.has w = true
    · have hmem : w ∈ s.queue := by
        have h1 := hh w
        rw [hw] at h1
        exact of_decide_eq_true h1.symm
      have hq : enqueueAll (w :: l) s = enqueueAll l s := by
        simp [enqueueAll, queueWatcher_skip s w hw]
      rw [hq]
      have := ih s hf hh
      simpa [hmem] using this
    · have hw0 : s.has w = false := by simpa using hw
      have hmem : w ∉ s.queue := by
        intro hc
        have h1 := hh w
        rw [hw0] at h1
        exact absurd (decide_eq_true hc) (by rw [← h1]; simp)
      obtain ⟨hq, hhas, hfl, hidx, hruns, hwarn, hcirc⟩ :=
        queueWatcher_fields s w hw0 hf
      have hstep : enqueueAll (w :: l) s = enqueueAll l (queueWatcher w s) := rfl
      have hh2 : ∀ n, (queueWatcher w s).has n
          = decide (n ∈ (queueWatcher w s).queue) := by
        intro n
        rw [hhas n, hq]
        by_cases hn : n = w
        · subst hn; simp
        · simp [hn, hh n]
      obtain ⟨iq, ihas, ifl, iidx, iruns, iwarn, icirc⟩ :=
        ih (queueWatcher w s) hfl hh2
      rw [hstep]
      refine ⟨?_, ihas, ifl, ?_, ?_, ?_, ?_⟩
      · rw [iq, hq]
        simp [hmem]
      · rw [iidx, hidx]
      · rw [iruns, hruns]
      · rw [iwarn, hwarn]
      · rw [icirc, hcirc]

theorem flushIter_no_requeue (env : RunEnv) (s : Sched)
    (hlt : s.index < s.queue.length)
    (henv : env (s.queue.get ⟨s.index, hlt⟩) = []) :
    flushIter env s = .cont
      { s with has := fun n => if n = s.queue.get ⟨s.index, hlt⟩ then false
                               else s.has n,
               runs := s.runs ++ [s.queue.get ⟨s.index, hlt⟩],
               index := s.index + 1 } := by
  simp only [flushIter, dif_pos hlt, henv, enqueueAll, List.foldl_nil]
  simp

theorem flushLoop_emptyEnv (env : RunEnv) (henv : ∀ w, env w = [])
    (fuel : Nat) :
    ∀ s : Sched, s.queue.length - s.index ≤ fuel →
    (flushLoop env fuel s).runs = s.runs ++ s.queue.drop s.index
    ∧ (flushLoop env fuel s).warned = s.warned := by
  induction fuel with
  | zero =>
    intro s h
    have hd : s.queue.drop s.index = [] := List.drop_eq_nil_of_le (by omega)
    simp [flushLoop, hd]
  | succ fuel ih =>
    intro s h
    by_cases hlt : s.index < s.queue.length
    · have hiter := flushIter_no_requeue env s hlt (henv _)
      set w := s.queue.get ⟨s.index, hlt⟩ with hwdef
      set t : Sched :=
        { s with has := fun n => if n = w then false else s.has n,
                 runs := s.runs ++ [w], index := s.index + 1 } with htdef
      have hstep : flushLoop env (fuel + 1) s = flushLoop env fuel t := by
        rw [flushLoop, hiter]
      rw [hstep]
      obtain ⟨h1, h2⟩ := ih t (by simp only [htdef]; omega)
      have htq : t.queue = s.queue := rfl
      have hti : t.index = s.index + 1 := rfl
      have htr : t.runs = s.runs ++ [w] := rfl
      have htw : t.warned = s.warned := rfl
      refine ⟨?_, by rw [h2, htw]⟩
      rw [h1, htq, hti, htr]
      simp only [List.append_assoc, List.singleton_append]
      congr 1
      have := List.getElem_cons_drop s.queue s.index hlt
      rw [hwdef]
      simp only [List.get_eq_getElem]
      exact this
    · have hd : s.queue.drop s.index = [] := List.drop_eq_nil_of_le (by omega)
      rw [flushLoop]
      simp [flushIter, hlt, hd]

theorem dedupFirst_aux_length (l : List Nat) :
    ∀ acc : List Nat,
    (l.foldl (fun acc w => if w ∈ acc then acc else acc ++ [w]) acc).length
      ≤ acc.length + l.length := by
  induction l with
  | nil => intro acc; simp
  | cons w l ih =>
    intro acc
    by_cases hw : w ∈ acc
    · simp only [List.foldl_cons, if_pos hw, List.length_cons]
      have := ih acc
      omega
    · simp only [List.foldl_cons, if_neg hw, List.length_cons]
      have h2 := ih (acc ++ [w])
      simp only [List.length_append, List.length_singleton] at h2
      omega

theorem dedupFirst_length_le (l : List Nat) :
    (dedupFirst l).length ≤ l.length := by
  have := dedupFirst_aux_length l []
  simpa [dedupFirst] using this

theorem dedupFirst_aux_mem (l : List Nat) :
    ∀ acc : List Nat, ∀ x : Nat,
    (x ∈ l.foldl (fun acc w => if w ∈ acc then acc else acc ++ [w]) acc)
      ↔ x ∈ acc ∨ x ∈ l := by
  induction l with
  | nil => intro acc x; simp
  | cons w l ih =>
    intro acc x
    by_cases hw : w ∈ acc
    · simp only [List.foldl_cons, if_pos hw, ih acc x, List.mem_cons]
      have hx : x = w → x ∈ acc := fun h => h ▸ hw
      tauto
    · simp only [List.foldl_cons, if_neg hw, ih (acc ++ [w]) x,
        List.mem_append, List.mem_singleton, List.mem_cons]
      tauto

theorem dedupFirst_aux_nodup (l : List Nat) :
    ∀ acc : List Nat, acc.Nodup →
    (l.foldl (fun acc w => if w ∈ acc then acc else acc ++ [w]) acc).Nodup := by
  induction l with
  | nil => intro acc h; simpa using h
  | cons w l ih =>
    intro acc h
    by_cases hw : w ∈ acc
    · simp only [List.foldl_cons, if_pos hw]
      exact ih acc h
    · simp only [List.foldl_cons, if_neg hw]
      refine ih (acc ++ [w]) ?_
      rw [List.nodup_append]
      refine ⟨h, List.nodup_singleton w, ?_⟩
      intro a ha hb
      rw [List.mem_singleton] at hb
      exact hw (hb ▸ ha)

theorem dedupFirst_nodup (l : List Nat) : (dedupFirst l).Nodup :=
  dedupFirst_aux_nodup l [] List.nodup_nil

theorem mem_dedupFirst (l : List Nat) (x : Nat) :
    x ∈ dedupFirst l ↔ x ∈ l := by
  have := dedupFirst_aux_mem l [] x
  simpa [dedupFirst] using this

theorem schedRun_runs_empty (l : List Nat) (fuel : Nat)
    (hfuel : (dedupFirst l).length ≤ fuel) :
    (schedRun emptyEnv fuel l).runs
      = List.insertionSort (· ≤ ·) (dedupFirst l) := by
  obtain ⟨hq, hhas, hfl, hidx, hruns, hwarn, hcirc⟩ :=
    enqueueAll_not_flushing l initSched rfl (by intro n; simp [initSched])
  have hq2 : (enqueueAll l initSched).queue = dedupFirst l := hq
  set es := enqueueAll l initSched with hes
  set X : Sched :=
    { es with flushing := true,
              queue := List.insertionSort (· ≤ ·) es.queue, index := 0 }
    with hX
  have hgoal : (schedRun emptyEnv fuel l).runs
      = (flushLoop emptyEnv fuel X).runs := rfl
  rw [hgoal]
  obtain ⟨hr, _⟩ := flushLoop_emptyEnv emptyEnv (fun _ => rfl) fuel X
    (by simp only [hX, List.length_insertionSort, hq2]; omega)
  rw [hr]
  have hXr : X.runs = [] := hruns
  have hXq : X.queue = List.insertionSort (· ≤ ·) (dedupFirst l) := by
    simp only [hX, hq2]
  have hXi : X.index = 0 := rfl
  rw [hXr, hXq, hXi, List.drop_zero, List.nil_append]

/-- C7: at the start of every flush the queue is sorted ascending by watcher
id before any watcher executes, so watchers enqueued before the flush (none
of whose runs enqueue anything further) execute in ascending id order
regardless of enqueue order; in particular, enqueueing watchers with ids
`[3, 1, 2]` in that order makes the flush run them in order `[1, 2, 3]`. -/
theorem flush_runs_in_ascending_id_order (l : List Nat) :
    (schedRun emptyEnv l.length l).runs
      = List.insertionSort (· ≤ ·) (dedupFirst l)
    ∧ ((schedRun emptyEnv l.length l).runs).Sorted (· ≤ ·)
    ∧ (schedRun emptyEnv 3 [3, 1, 2]).runs = [1, 2, 3] := by
  have h := schedRun_runs_empty l l.length (dedupFirst_length_le l)
  refine ⟨h, ?_, ?_⟩
  · rw [h]
    exact List.sorted_insertionSort _ _
  · decide

/-- C6: enqueueing a watcher id any number of times between flush boundaries
(no enqueue happening during a run) yields exactly one `run()` of that id in
the subsequent flush, and `queueWatcher` on an id already in the presence set
is a complete no-op. -/
theorem watcher_dedup_single_run (l : List Nat) (w : Nat) (hw : w ∈ l) :
    ((schedRun emptyEnv l.length l).runs).count w = 1
    ∧ (∀ (s : Sched) (x : Nat), s.has x = true → queueWatcher x s = s) := by
  refine ⟨?_, fun s x h => queueWatcher_skip s x h⟩
  rw [schedRun_runs_empty l l.length (dedupFirst_length_le l)]
  have hperm := List.perm_insertionSort (· ≤ ·) (dedupFirst l)
  rw [hperm.count_eq]
  exact List.count_eq_one_of_mem (dedupFirst_nodup l) ((mem_dedupFirst l w).mpr hw)

/-- Witness for C6 at the concrete enqueue sequence `[3, 2, 2]`. -/
theorem watcher_dedup_single_run_witness :
    (2 ∈ [3, 2, 2])
    ∧ (((schedRun emptyEnv 3 [3, 2, 2]).runs).count 2 = 1
       ∧ ∀ (s : Sched) (x : Nat), s.has x = true → queueWatcher x s = s) :=
  ⟨by decide, watcher_dedup_single_run [3, 2, 2] 2 (by decide)⟩

theorem queueWatcher_flushing_queue (s : Sched) (w : Nat)
    (hw : s.has w = false) (hf : s.flushing = true) :
    (queueWatcher w s).queue
      = insertAt s.queue (spliceScan s.queue s.index w (s.queue.length - 1) + 1)
          w := by
  by_cases hwait : s.waiting = true
  · simp [queueWatcher, hw, hf, hwait]
  · simp only [Bool.not_eq_true] at hwait
    simp [queueWatcher, hw, hf, hwait]

theorem spliceScan_ge (q : List Nat) (idx wid : Nat) :
    ∀ i0, idx ≤ i0 → idx ≤ spliceScan q idx wid i0 := by
  intro i0
  induction i0 with
  | zero =>
    intro h
    simpa [spliceScan] using h
  | succ i ih =>
    intro h
    rw [spliceScan]
    split
    · rename_i hc
      exact ih (by omega)
    · exact h

theorem take_insertAt_of_le {α : Type} (q : List α) (p : Nat) (a : α)
    (m : Nat) (hm : m ≤ p) (hq : m ≤ q.length) :
    (insertAt q p a).take m = q.take m := by
  unfold insertAt
  rw [List.take_append_of_le_length (by rw [List.length_take]; omega)]
  rw [List.take_take]
  congr 1
  omega

theorem length_insertAt {α : Type} (q : List α) (p : Nat) (a : α) :
    (insertAt q p a).length = q.length + 1 := by
  unfold insertAt
  simp only [List.length_append, List.length_take, List.length_cons,
    List.length_drop]
  omega

/-- C1 counterexample: flushing the single watcher 5 whose run enqueues
watchers 2 and 8 mid-flush executes ALL THREE in the same flush, in order
`[5, 2, 8]` — the id-2 watcher runs immediately next in the same flush (as
the source comment says: if already past its id, it will be run next
immediately), not in the next flush; after the flush the queue is empty, so
a next flush would run nothing. -/
theorem midflush_insertion_counterexample :
    (schedRun midFlushEnv 5 [5]).runs = [5, 2, 8]
    ∧ (schedRun midFlushEnv 5 [5]).queue = [] := by
  constructor
  · decide
  · decide

/-- C1 amended: a watcher enqueued mid-flush is always spliced in strictly
after the execution cursor — the already-executed prefix up to and including
the cursor is unchanged and the queue grows by one — so it runs later in the
SAME flush (a smaller-than-cursor id immediately next, a larger id at its
sorted slot); concretely, while executing watcher 5, enqueueing ids 2 and 8
makes the flush run `[5, 2, 8]`. -/
theorem midflush_insertion_amended :
    ((schedRun midFlushEnv 5 [5]).runs = [5, 2, 8])
    ∧ (∀ (s : Sched) (w : Nat), s.flushing = true → s.has w = false →
        s.index < s.queue.length →
        (queueWatcher w s).queue.take (s.index + 1) = s.queue.take (s.index + 1)
        ∧ (queueWatcher w s).queue.length = s.queue.length + 1) := by
  constructor
  · decide
  · intro s w hf hw hlt
    rw [queueWatcher_flushing_queue s w hw hf]
    have hge : s.index ≤ spliceScan s.queue s.index w (s.queue.length - 1) :=
      spliceScan_ge s.queue s.index w _ (by omega)
    constructor
    · exact take_insertAt_of_le _ _ _ _ (by omega) (by omega)
    · exact length_insertAt _ _ _

/-- Witness for C1's amended statement at a concrete mid-flush state. -/
theorem midflush_insertion_amended_witness :
    (exFlushState.flushing = true ∧ exFlushState.has 2 = false
     ∧ exFlushState.index < exFlushState.queue.length)
    ∧ ((queueWatcher 2 exFlushState).queue.take (exFlushState.index + 1)
          = exFlushState.queue.take (exFlushState.index + 1)
       ∧ (queueWatcher 2 exFlushState).queue.length
          = exFlushState.queue.length + 1) :=
  ⟨⟨rfl, rfl, by decide⟩,
   midflush_insertion_amended.2 exFlushState 2 rfl rfl (by decide)⟩

theorem spliceScan_self (q : List Nat) (i wid : Nat) :
    spliceScan q i wid i = i := by
  cases i with
  | zero => rfl
  | succ m => simp [spliceScan]

theorem insertAt_replicate_self (k p w : Nat) (hp : p ≤ k) :
    insertAt (List.replicate k w) p w = List.replicate (k + 1) w := by
  unfold insertAt
  rw [List.take_replicate, List.drop_replicate]
  have h1 : p ⊓ k = p := by omega
  rw [h1]
  have h2 : w :: List.replicate (k - p) w = List.replicate (k - p + 1) w := rfl
  rw [h2, ← List.replicate_add]
  congr 1
  omega

theorem selfIter_cont (w n : Nat) (hn : n < 100) :
    flushIter selfEnv (selfState w n) = .cont (selfState w (n + 1)) := by
  have hlt : (selfState w n).index < (selfState w n).queue.length := by
    simp [selfState]
  unfold flushIter
  rw [dif_pos hlt]
  have hget : (selfState w n).queue.get ⟨(selfState w n).index, hlt⟩ = w := by
    simp [selfState]
  simp only [hget, selfEnv, enqueueAll, List.foldl_cons, List.foldl_nil]
  have h100 : ¬ (n + 1 > MAX_UPDATE_COUNT) := by
    simp only [MAX_UPDATE_COUNT]
    omega
  simp [selfState, queueWatcher, List.length_replicate, Nat.add_sub_cancel,
    spliceScan_self, insertAt_replicate_self (n + 1) (n + 1) w le_rfl, h100]
  constructor
  · funext m
    by_cases hm : m = w <;> simp [hm]
  · exact (List.replicate_succ' n w).symm

theorem selfIter_stop (w n : Nat) (hn : n + 1 > MAX_UPDATE_COUNT) :
    flushIter selfEnv (selfState w n)
      = .stop { selfState w (n + 1) with index := n, warned := [w] } := by
  have hlt : (selfState w n).index < (selfState w n).queue.length := by
    simp [selfState]
  unfold flushIter
  rw [dif_pos hlt]
  have hget : (selfState w n).queue.get ⟨(selfState w n).index, hlt⟩ = w := by
    simp [selfState]
  simp only [hget, selfEnv, enqueueAll, List.foldl_cons, List.foldl_nil]
  simp [selfState, queueWatcher, List.length_replicate, Nat.add_sub_cancel,
    spliceScan_self, insertAt_replicate_self (n + 1) (n + 1) w le_rfl, hn]
  constructor
  · funext m
    by_cases hm : m = w <;> simp [hm]
  · exact (List.replicate_succ' n w).symm

theorem selfLoop_reaches_final (w : Nat) :
    ∀ k n f, n + k = 100 →
    flushLoop selfEnv (k + (f + 1)) (selfState w n) = selfFinal w := by
  intro k
  induction k with
  | zero =>
    intro n f h
    have hn : n = 100 := by omega
    subst hn
    rw [Nat.zero_add, flushLoop, selfIter_stop w 100 (by decide)]
    simp [selfState, selfFinal]
  | succ k ih =>
    intro n f h
    have hfuel : k + 1 + (f + 1) = (k + (f + 1)) + 1 := by omega
    rw [hfuel, flushLoop, selfIter_cont w n (by omega)]
    exact ih (n + 1) f (by omega)

theorem flush_self_requeue_eq (w : Nat) : ∀ g : Nat,
    flushSchedulerQueue selfEnv (101 + g) (queueWatcher w initSched)
      = { selfFinal w with
          index := 0,
          queue := [],
          has := fun _ => false,
          circular := fun _ => 0,
          waiting := false,
          flushing := false } := by
  intro g
  have hX : ({ queueWatcher w initSched with
               flushing := true,
               queue := List.insertionSort (· ≤ ·) (queueWatcher w initSched).queue,
               index := 0 } : Sched) = selfState w 0 := by
    simp [queueWatcher, initSched, selfState, List.insertionSort,
      List.orderedInsert]
  show ({ flushLoop selfEnv (101 + g)
            { queueWatcher w initSched with
              flushing := true,
              queue := List.insertionSort (· ≤ ·) (queueWatcher w initSched).queue,
              index := 0 } with
          index := 0,
          queue := [],
          has := fun _ => false,
          circular := fun _ => 0,
          waiting := false,
          flushing := false } : Sched) = _
  rw [hX]
  have harith : 101 + g = 100 + (g + 1) := by omega
  rw [harith, selfLoop_reaches_final w 100 0 g (by omega)]

/-- C5: a watcher whose `run()` unconditionally re-enqueues itself is
executed exactly 101 times (threshold 100 plus the initial run) within a
single flush, after which the loop aborts with a diagnostic naming the
watcher (the queue still held pending copies); the flush result is the same
for every fuel of at least 101, i.e. the flush loop terminates despite the
self-re-enqueueing watcher. -/
theorem circular_guard_aborts_after_101 (w f : Nat) :
    (flushSchedulerQueue selfEnv (101 + f) (queueWatcher w initSched)).runs.count w
        = 101
    ∧ (flushSchedulerQueue selfEnv (101 + f) (queueWatcher w initSched)).runs.length
        = 101
    ∧ (flushSchedulerQueue selfEnv (101 + f) (queueWatcher w initSched)).warned
        = [w]
    ∧ flushSchedulerQueue selfEnv (101 + f) (queueWatcher w initSched)
        = flushSchedulerQueue selfEnv (101 + 0) (queueWatcher w initSched) := by
  rw [flush_self_requeue_eq w f, flush_self_requeue_eq w 0]
  refine ⟨?_, ?_, rfl, rfl⟩
  · show (List.replicate 101 w).count w = 101
    exact List.count_replicate_self w 101
  · show (List.replicate 101 w).length = 101
    exact List.length_replicate 101 w

/-! ## Mutation interceptor theorems -/

/-- C8: every patched array mutator (push, pop, shift, unshift, splice,
sort, reverse) performs the native operation and returns its result
unmodified; the elements passed to recursive observation are exactly all the
arguments for push and unshift, the arguments from the third position onward
(the inserted items) for splice, and nothing for the other operations; and
each call triggers exactly one dep notification. -/
theorem array_interceptor_native_observe_notify (V : Type) (s : Observed V)
    (args items : List V) (start : Int) (deleteCount : Option Int)
    (le : V → V → Bool) :
    ((pushObs args s).1 = (nativePush args s.arr).1
     ∧ (pushObs args s).2.arr = (nativePush args s.arr).2
     ∧ (pushObs args s).2.observedLog = s.observedLog ++ [args]
     ∧ (pushObs args s).2.notifyCount = s.notifyCount + 1)
    ∧ ((popObs s).1 = (nativePop s.arr).1
     ∧ (popObs s).2.arr = (nativePop s.arr).2
     ∧ (popObs s).2.observedLog = s.observedLog
     ∧ (popObs s).2.notifyCount = s.notifyCount + 1)
    ∧ ((shiftObs s).1 = (nativeShift s.arr).1
     ∧ (shiftObs s).2.arr = (nativeShift s.arr).2
     ∧ (shiftObs s).2.observedLog = s.observedLog
     ∧ (shiftObs s).2.notifyCount = s.notifyCount + 1)
    ∧ ((unshiftObs args s).1 = (nativeUnshift args s.arr).1
     ∧ (unshiftObs args s).2.arr = (nativeUnshift args s.arr).2
     ∧ (unshiftObs args s).2.observedLog = s.observedLog ++ [args]
     ∧ (unshiftObs args s).2.notifyCount = s.notifyCount + 1)
    ∧ ((spliceObs start deleteCount items s).1
          = (nativeSplice start deleteCount items s.arr).1
     ∧ (spliceObs start deleteCount items s).2.arr
          = (nativeSplice start deleteCount items s.arr).2
     ∧ (spliceObs start deleteCount items s).2.observedLog
          = s.observedLog ++ [items]
     ∧ (spliceObs start deleteCount items s).2.notifyCount = s.notifyCount + 1)
    ∧ ((sortObs le s).1 = (nativeSort le s.arr).1
     ∧ (sortObs le s).2.arr = (nativeSort le s.arr).2
     ∧ (sortObs le s).2.observedLog = s.observedLog
     ∧ (sortObs le s).2.notifyCount = s.notifyCount + 1)
    ∧ ((reverseObs s).1 = (nativeReverse s.arr).1
     ∧ (reverseObs s).2.arr = (nativeReverse s.arr).2
     ∧ (reverseObs s).2.observedLog = s.observedLog
     ∧ (reverseObs s).2.notifyCount = s.notifyCount + 1) :=
  ⟨⟨rfl, rfl, rfl, rfl⟩, ⟨rfl, rfl, rfl, rfl⟩, ⟨rfl, rfl, rfl, rfl⟩,
   ⟨rfl, rfl, rfl, rfl⟩, ⟨rfl, rfl, rfl, rfl⟩, ⟨rfl, rfl, rfl, rfl⟩,
   ⟨rfl, rfl, rfl, rfl⟩⟩

/-! ## Resolver lemmas -/

theorem forceRender_fields (b : Bool) (s : RState) :
    (forceRender b s).forceUpdates = s.forceUpdates ++ s.f.contexts.getD []
    ∧ (forceRender b s).f.contexts = (if b then some [] else s.f.contexts)
    ∧ (forceRender b s).f.error = s.f.error
    ∧ (forceRender b s).f.errorComp = s.f.errorComp
    ∧ (forceRender b s).f.resolved = s.f.resolved
    ∧ (forceRender b s).f.loading = s.f.loading
    ∧ (forceRender b s).f.loadingComp = s.f.loadingComp
    ∧ (forceRender b s).sync = s.sync
    ∧ (forceRender b s).resolveUsed = s.resolveUsed
    ∧ (forceRender b s).rejectUsed = s.rejectUsed
    ∧ (forceRender b s).chained = s.chained
    ∧ (forceRender b s).delayTimer = s.delayTimer
    ∧ (forceRender b s).timeoutTimer = s.timeoutTimer
    ∧ (forceRender b s).warns = s.warns
    ∧ (forceRender b s).producerCalls = s.producerCalls := by
  cases b <;> simp [forceRender]

theorem resolve_contexts_isSome (v : ResVal) (s : RState)
    (h : s.f.contexts.isSome = true) :
    (resolve v s).f.contexts.isSome = true := by
  by_cases hu : s.resolveUsed = true
  · simp [resolve, hu, h]
  · by_cases hs : s.sync = true <;> simp [resolve, forceRender, hu, hs, h]

theorem resolve_producerCalls (v : ResVal) (s : RState) :
    (resolve v s).producerCalls = s.producerCalls := by
  by_cases hu : s.resolveUsed = true
  · simp [resolve, hu]
  · by_cases hs : s.sync = true <;> simp [resolve, forceRender, hu, hs]

theorem reject_contexts_isSome (s : RState)
    (h : s.f.contexts.isSome = true) :
    (reject s).f.contexts.isSome = true := by
  by_cases hu : s.rejectUsed = true
  · simp [reject, hu, h]
  · by_cases he : s.f.errorComp.isSome <;> simp [reject, forceRender, hu, he, h]

theorem reject_producerCalls (s : RState) :
    (reject s).producerCalls = s.producerCalls := by
  by_cases hu : s.rejectUsed = true
  · simp [reject, hu]
  · by_cases he : s.f.errorComp.isSome <;> simp [reject, forceRender, hu, he]

theorem reject_resolved_loading (s : RState) :
    (reject s).f.resolved = s.f.resolved
    ∧ (reject s).f.loading = s.f.loading := by
  by_cases hu : s.rejectUsed = true
  · simp [reject, hu]
  · by_cases he : s.f.errorComp.isSome <;> simp [reject, forceRender, hu, he]

/-- A request on an already-resolved (or errored-with-substitute) factory
returns without touching the state. -/
theorem resolveAsyncComponent_resolved_state (p : Producer) (c : Nat)
    (s : RState) (h1 : s.f.resolved.isSome = true) :
    (resolveAsyncComponent p c s).1 = s := by
  unfold resolveAsyncComponent
  by_cases hc : (s.f.error = true ∧ s.f.errorComp.isSome = true)
  · rw [if_pos hc]
  · rw [if_neg hc, if_pos h1]

/-- A request on a factory with a pending-consumer list either returns the
state unchanged or just appends the consumer; it never re-enters the
first-request branch. -/
theorem resolveAsyncComponent_pending_fields (p : Producer) (c : Nat)
    (s : RState) (h : s.f.contexts.isSome = true) :
    (resolveAsyncComponent p c s).1.f.contexts.isSome = true
    ∧ (resolveAsyncComponent p c s).1.producerCalls = s.producerCalls := by
  unfold resolveAsyncComponent
  by_cases h1 : (s.f.error = true ∧ s.f.errorComp.isSome = true)
  · rw [if_pos h1]; exact ⟨h, rfl⟩
  · rw [if_neg h1]
    by_cases h2 : s.f.resolved.isSome = true
    · rw [if_pos h2]; exact ⟨h, rfl⟩
    · rw [if_neg h2]
      by_cases h3 : (s.f.loading = true ∧ s.f.loadingComp.isSome = true)
      · rw [if_pos h3]; exact ⟨h, rfl⟩
      · rw [if_neg h3, if_pos h]
        exact ⟨by simp, rfl⟩

/-- Once some consumer is pending on a factory, no later event can re-enter
the first-request branch, so the producer is never invoked again and the
pending list stays allocated. -/
theorem step_preserves_pending (p : Producer) (s : RState) (e : Ev)
    (h : s.f.contexts.isSome = true) :
    (step p s e).f.contexts.isSome = true
    ∧ (step p s e).producerCalls = s.producerCalls := by
  cases e with
  | settleRes v =>
    by_cases hc : s.chained = true
    · simp only [step, hc, if_true]
      exact ⟨resolve_contexts_isSome v s h, resolve_producerCalls v s⟩
    · simp [step, hc, h]
  | settleRej =>
    by_cases hc : s.chained = true
    · simp only [step, hc, if_true]
      exact ⟨reject_contexts_isSome s h, reject_producerCalls s⟩
    · simp [step, hc, h]
  | delayFired =>
    cases hd : s.delayTimer with
    | none => simp [step, hd, h]
    | some d =>
      simp only [step, hd]
      split
      · exact ⟨by simp [forceRender, h], by simp [forceRender]⟩
      · exact ⟨h, rfl⟩
  | timeoutFired =>
    cases ht : s.timeoutTimer with
    | none => simp [step, ht, h]
    | some t =>
      simp only [step, ht]
      split
      · exact ⟨reject_contexts_isSome _ h, reject_producerCalls _⟩
      · exact ⟨h, rfl⟩
  | request c =>
    simp only [step]
    exact resolveAsyncComponent_pending_fields p c s h

theorem runEvs_preserves_pending (p : Producer) (evs : List Ev) :
    ∀ s : RState, s.f.contexts.isSome = true →
    (runEvs p evs s).f.contexts.isSome = true
    ∧ (runEvs p evs s).producerCalls = s.producerCalls := by
  induction evs with
  | nil => intro s h; exact ⟨h, rfl⟩
  | cons e evs ih =>
    intro s h
    obtain ⟨h1, h2⟩ := step_preserves_pending p s e h
    obtain ⟨h3, h4⟩ := ih (step p s e) h1
    exact ⟨h3, h4.trans h2⟩

/-- Once the factory is resolved (and not loading), no later event can set
the Loading flag or clear the resolved value. -/
theorem step_resolved_no_loading (p : Producer) (s : RState) (e : Ev)
    (h1 : s.f.resolved.isSome = true) (h2 : s.f.loading = false) :
    (step p s e).f.resolved.isSome = true
    ∧ (step p s e).f.loading = false := by
  cases e with
  | settleRes v =>
    by_cases hc : s.chained = true
    · simp only [step, hc, if_true]
      by_cases hu : s.resolveUsed = true
      · simp [resolve, hu, h1, h2]
      · by_cases hs : s.sync = true <;>
          simp [resolve, forceRender, hu, hs, h2]
    · simp [step, hc, h1, h2]
  | settleRej =>
    by_cases hc : s.chained = true
    · simp only [step, hc, if_true]
      obtain ⟨hr, hl⟩ := reject_resolved_loading s
      rw [hr, hl]
      exact ⟨h1, h2⟩
    · simp [step, hc, h1, h2]
  | delayFired =>
    cases hd : s.delayTimer with
    | none => simp [step, hd, h1, h2]
    | some d =>
      simp only [step, hd]
      split
      · rename_i hcond
        rw [Option.isNone_iff_eq_none] at hcond
        rw [Option.isSome_iff_exists] at h1
        obtain ⟨x, hx⟩ := h1
        exact absurd hcond.1 (by simp [hx])
      · exact ⟨h1, h2⟩
  | timeoutFired =>
    cases ht : s.timeoutTimer with
    | none => simp [step, ht, h1, h2]
    | some t =>
      simp only [step, ht]
      split
      · rename_i hcond
        rw [Option.isNone_iff_eq_none] at hcond
        rw [Option.isSome_iff_exists] at h1
        obtain ⟨x, hx⟩ := h1
        exact absurd hcond (by simp [hx])
      · exact ⟨h1, h2⟩
  | request c =>
    simp only [step]
    rw [resolveAsyncComponent_resolved_state p c s h1]
    exact ⟨h1, h2⟩

theorem runEvs_resolved_no_loading (p : Producer) (evs : List Ev) :
    ∀ s : RState, s.f.resolved.isSome = true → s.f.loading = false →
    (runEvs p evs s).f.resolved.isSome = true
    ∧ (runEvs p evs s).f.loading = false := by
  induction evs with
  | nil => intro s h1 h2; exact ⟨h1, h2⟩
  | cons e evs ih =>
    intro s h1 h2
    obtain ⟨h3, h4⟩ := step_resolved_no_loading p s e h1 h2
    exact ih (step p s e) h3 h4

/-- C2 counterexample: a producer that invokes the failure callback, with no
error substitute anywhere, leaves `factory.error` unset — the unit does NOT
transition to the Errored state even though the failure callback effectively
ran (its run-once guard is consumed and the diagnostic was recorded). -/
theorem fail_no_substitute_counterexample :
    ((resolveAsyncComponent rejProducer 1 initRState).1.f.error = false)
    ∧ ((resolveAsyncComponent rejProducer 1 initRState).1.rejectUsed = true)
    ∧ ((resolveAsyncComponent rejProducer 1 initRState).1.warns = 1) := by
  refine ⟨?_, ?_, ?_⟩ <;> rfl

/-- C2 amended: the failure callback, on its first effective invocation,
always records a diagnostic; it transitions the unit to Errored and forces
re-evaluation of every pending consumer exactly when an error substitute
exists; with no error substitute the factory state (and the pending
consumers) are left entirely unchanged — there is no silent Errored
transition. -/
theorem fail_errored_iff_substitute (s : RState) (hr : s.rejectUsed = false) :
    ((reject s).warns = s.warns + 1)
    ∧ (s.f.errorComp.isSome = false →
        (reject s).f = s.f ∧ (reject s).forceUpdates = s.forceUpdates)
    ∧ (s.f.errorComp.isSome = true →
        (reject s).f.error = true
        ∧ (reject s).forceUpdates = s.forceUpdates ++ s.f.contexts.getD []
        ∧ (reject s).f.contexts = some []) := by
  refine ⟨?_, ?_, ?_⟩
  · by_cases he : s.f.errorComp.isSome <;> simp [reject, forceRender, hr, he]
  · intro he
    simp [reject, forceRender, hr, he]
  · intro he
    simp [reject, forceRender, hr, he]

/-- Witness for C2's amended statement at the initial resolver state. -/
theorem fail_errored_iff_substitute_witness :
    (initRState.rejectUsed = false)
    ∧ (((reject initRState).warns = initRState.warns + 1)
       ∧ (initRState.f.errorComp.isSome = false →
           (reject initRState).f = initRState.f
           ∧ (reject initRState).forceUpdates = initRState.forceUpdates)
       ∧ (initRState.f.errorComp.isSome = true →
           (reject initRState).f.error = true
           ∧ (reject initRState).forceUpdates
               = initRState.forceUpdates ++ initRState.f.contexts.getD []
           ∧ (reject initRState).f.contexts = some [])) :=
  ⟨rfl, fail_errored_iff_substitute initRState rfl⟩

/-- C3: the producer function is invoked exactly once across two resolve
calls with distinct consumers, both consumers end up in the pending list in
order, on asynchronous completion each receives exactly one forced
re-evaluation, and in general no event sequence on a factory whose pending
list is allocated can invoke the producer again. -/
theorem producer_single_invocation (c1 c2 : Nat) (v : ResVal)
    (hne : c1 ≠ c2) :
    ((resolveAsyncComponent promProducer c1 initRState).1.producerCalls = 1)
    ∧ ((resolveAsyncComponent promProducer c2
          (resolveAsyncComponent promProducer c1 initRState).1).1.producerCalls
        = 1)
    ∧ ((resolveAsyncComponent promProducer c2
          (resolveAsyncComponent promProducer c1 initRState).1).1.f.contexts
        = some [c1, c2])
    ∧ ((step promProducer (resolveAsyncComponent promProducer c2
          (resolveAsyncComponent promProducer c1 initRState).1).1
          (.settleRes v)).forceUpdates.count c1 = 1)
    ∧ ((step promProducer (resolveAsyncComponent promProducer c2
          (resolveAsyncComponent promProducer c1 initRState).1).1
          (.settleRes v)).forceUpdates.count c2 = 1)
    ∧ (∀ (p : Producer) (s : RState) (evs : List Ev),
        s.f.contexts.isSome = true →
        (runEvs p evs s).producerCalls = s.producerCalls) := by
  refine ⟨?_, ?_, ?_, ?_, ?_, ?_⟩
  · rfl
  · simp [resolveAsyncComponent, initRState, initFactory, promProducer,
      runActs, handleRet]
  · simp [resolveAsyncComponent, initRState, initFactory, promProducer,
      runActs, handleRet]
  · simp [resolveAsyncComponent, initRState, initFactory, promProducer,
      runActs, handleRet, step, resolve, forceRender, List.count_cons, hne,
      Ne.symm hne]
  · simp [resolveAsyncComponent, initRState, initFactory, promProducer,
      runActs, handleRet, step, resolve, forceRender, List.count_cons, hne,
      Ne.symm hne]
  · intro p s evs h
    exact (runEvs_preserves_pending p evs s h).2

/-- Witness for C3 at consumers 1 and 2. -/
theorem producer_single_invocation_witness :
    ((1 : Nat) ≠ 2)
    ∧ (((resolveAsyncComponent promProducer 1 initRState).1.producerCalls = 1)
       ∧ ((resolveAsyncComponent promProducer 2
             (resolveAsyncComponent promProducer 1 initRState).1).1.producerCalls
           = 1)
       ∧ ((resolveAsyncComponent promProducer 2
             (resolveAsyncComponent promProducer 1 initRState).1).1.f.contexts
           = some [1, 2])
       ∧ ((step promProducer (resolveAsyncComponent promProducer 2
             (resolveAsyncComponent promProducer 1 initRState).1).1
             (.settleRes (.options 0))).forceUpdates.count 1 = 1)
       ∧ ((step promProducer (resolveAsyncComponent promProducer 2
             (resolveAsyncComponent promProducer 1 initRState).1).1
             (.settleRes (.options 0))).forceUpdates.count 2 = 1)
       ∧ (∀ (p : Producer) (s : RState) (evs : List Ev),
           s.f.contexts.isSome = true →
           (runEvs p evs s).producerCalls = s.producerCalls)) :=
  ⟨by decide, producer_single_invocation 1 2 (.options 0) (by decide)⟩

/-- C4 counterexample: with `resThenRejProducer` the completion callback runs
synchronously and caches the resolved unit; a later first invocation of the
failure callback (the chained `component` promise rejecting) still takes
effect even though `resolved` is already set: it flips the unit to Errored,
and a subsequent request returns the error substitute rather than the cached
resolved unit. -/
theorem resolved_then_reject_counterexample :
    ((resolveAsyncComponent resThenRejProducer 1 initRState).1.f.resolved
        = some (Comp.raw (ResVal.ctorVal 1)))
    ∧ ((resolveAsyncComponent resThenRejProducer 1 initRState).1.f.error
        = false)
    ∧ ((runEvs resThenRejProducer [.settleRej]
          (resolveAsyncComponent resThenRejProducer 1 initRState).1).f.error
        = true)
    ∧ ((resolveAsyncComponent resThenRejProducer 2
          (runEvs resThenRejProducer [.settleRej]
            (resolveAsyncComponent resThenRejProducer 1 initRState).1)).2
        = some (Comp.extended (ResVal.options 2))) := by
  refine ⟨?_, ?_, ?_, ?_⟩ <;> rfl

/-- C4 amended: each completion-path callback individually is idempotent — a
second resolve is a complete no-op (the first result is retained as the
final resolved unit) and likewise a second reject — but a first reject after
an effective resolve still takes effect when an error substitute exists
(the unit becomes Errored), and a first resolve after an effective reject
still caches its value; "once either is set, all producer callbacks are
no-ops" holds only per-callback, not across the two. -/
theorem completion_idempotent_amended :
    (∀ (s : RState) (v1 v2 : ResVal), resolve v2 (resolve v1 s) = resolve v1 s)
    ∧ (∀ s : RState, reject (reject s) = reject s)
    ∧ (∀ (s : RState) (v1 v2 : ResVal), s.resolveUsed = false →
        (resolve v2 (resolve v1 s)).f.resolved = some (ensureCtor v1))
    ∧ (∀ (s : RState) (v : ResVal), s.resolveUsed = false →
        s.rejectUsed = false → s.f.errorComp.isSome = true →
        (reject (resolve v s)).f.resolved = some (ensureCtor v)
        ∧ (reject (resolve v s)).f.error = true) := by
  have h1 : ∀ (s : RState) (v : ResVal), s.resolveUsed = true →
      resolve v s = s := by
    intro s v h
    simp [resolve, h]
  have h2 : ∀ (s : RState) (v : ResVal), s.resolveUsed = false →
      (resolve v s).resolveUsed = true
      ∧ (resolve v s).f.resolved = some (ensureCtor v)
      ∧ (resolve v s).rejectUsed = s.rejectUsed
      ∧ (resolve v s).f.errorComp = s.f.errorComp := by
    intro s v h
    by_cases hs : s.sync = true <;> simp [resolve, forceRender, h, hs]
  have h3 : ∀ s : RState, s.rejectUsed = true → reject s = s := by
    intro s h
    simp [reject, h]
  have h4 : ∀ s : RState, s.rejectUsed = false →
      (reject s).rejectUsed = true := by
    intro s h
    by_cases he : s.f.errorComp.isSome <;> simp [reject, forceRender, h, he]
  have h5 : ∀ s : RState, s.rejectUsed = false → s.f.errorComp.isSome = true →
      (reject s).f.error = true ∧ (reject s).f.resolved = s.f.resolved := by
    intro s h he
    simp [reject, forceRender, h, he]
  refine ⟨?_, ?_, ?_, ?_⟩
  · intro s v1 v2
    by_cases hu : s.resolveUsed = true
    · rw [h1 s v1 hu]
      exact h1 s v2 hu
    · exact h1 _ v2 (h2 s v1 (by simpa using hu)).1
  · intro s
    by_cases hu : s.rejectUsed = true
    · rw [h3 s hu]
      exact h3 s hu
    · exact h3 _ (h4 s (by simpa using hu))
  · intro s v1 v2 hu
    rw [h1 _ v2 (h2 s v1 hu).1]
    exact (h2 s v1 hu).2.1
  · intro s v hu hru he
    obtain ⟨hA, hB, hC, hD⟩ := h2 s v hu
    have hiso : (resolve v s).f.errorComp.isSome = true := by
      rw [hD]
      exact he
    obtain ⟨hE, hF⟩ := h5 (resolve v s) (by rw [hC]; exact hru) hiso
    exact ⟨by rw [hF, hB], hE⟩

/-- Witness for C4's amended statement at concrete states and values. -/
theorem completion_idempotent_amended_witness :
    (initRState.resolveUsed = false ∧ errState.resolveUsed = false
     ∧ errState.rejectUsed = false ∧ errState.f.errorComp.isSome = true)
    ∧ ((resolve (.ctorVal 2) (resolve (.ctorVal 1) initRState)).f.resolved
        = some (ensureCtor (.ctorVal 1)))
    ∧ ((reject (resolve (.ctorVal 1) errState)).f.resolved
          = some (ensureCtor (.ctorVal 1))
       ∧ (reject (resolve (.ctorVal 1) errState)).f.error = true) :=
  ⟨⟨rfl, rfl, rfl, rfl⟩,
   completion_idempotent_amended.2.2.1 initRState (.ctorVal 1) (.ctorVal 2) rfl,
   completion_idempotent_amended.2.2.2 errState (.ctorVal 1) rfl rfl rfl⟩

/-- C9: with a loading substitute, `delay: 0` sets the Loading flag
synchronously during the first resolve call, which therefore returns the
loading substitute; a nonzero delay `d` schedules a timer of `d` time units
(200 when `delay` is unset) while Loading stays unset; the timer's firing
sets Loading and notifies the pending consumers only when the unit is still
unresolved and unerrored; and once resolution happens first (Loading still
unset), no later event — the timer's firing included — ever makes Loading
true. -/
theorem loading_delay_threshold (err : Option ResVal) (lv v : ResVal)
    (timeout : Option Nat) (c d : Nat) (hd : d ≠ 0) :
    ((resolveAsyncComponent ⟨[], .descriptor err (some lv) (some 0) timeout⟩
        c initRState).1.f.loading = true)
    ∧ ((resolveAsyncComponent ⟨[], .descriptor err (some lv) (some 0) timeout⟩
        c initRState).2 = some (ensureCtor lv))
    ∧ ((resolveAsyncComponent ⟨[], .descriptor err (some lv) (some d) timeout⟩
        c initRState).1.delayTimer = some d)
    ∧ ((resolveAsyncComponent ⟨[], .descriptor err (some lv) (some d) timeout⟩
        c initRState).1.f.loading = false)
    ∧ ((resolveAsyncComponent ⟨[], .descriptor err (some lv) none timeout⟩
        c initRState).1.delayTimer = some 200)
    ∧ (∀ (p : Producer) (s : RState), s.delayTimer.isSome = true →
        s.f.resolved = none → s.f.error = false →
        (step p s .delayFired).f.loading = true
        ∧ (step p s .delayFired).forceUpdates
            = s.forceUpdates ++ s.f.contexts.getD [])
    ∧ (∀ (p : Producer) (s : RState) (evs : List Ev),
        s.f.resolved.isSome = true → s.f.loading = false →
        (runEvs p evs s).f.loading = false)
    ∧ ((runEvs delay50Producer [.settleRes v, .delayFired]
          (resolveAsyncComponent delay50Producer c initRState).1).f.loading
        = false) := by
  refine ⟨?_, ?_, ?_, ?_, ?_, ?_, ?_, ?_⟩
  · cases err <;> cases timeout <;>
      simp [resolveAsyncComponent, initRState, initFactory, runActs, handleRet]
  · cases err <;> cases timeout <;>
      simp [resolveAsyncComponent, initRState, initFactory, runActs, handleRet]
  · cases err <;> cases timeout <;>
      simp [resolveAsyncComponent, initRState, initFactory, runActs, handleRet,
        hd]
  · cases err <;> cases timeout <;>
      simp [resolveAsyncComponent, initRState, initFactory, runActs, handleRet,
        hd]
  · cases err <;> cases timeout <;>
      simp [resolveAsyncComponent, initRState, initFactory, runActs, handleRet]
  · intro p s hdt hr he
    cases hts : s.delayTimer with
    | none => rw [hts] at hdt; simp at hdt
    | some dd =>
      simp only [step, hts]
      simp [forceRender, hr, he]
  · intro p s evs h1 h2
    exact (runEvs_resolved_no_loading p evs s h1 h2).2
  · simp [resolveAsyncComponent, initRState, initFactory, delay50Producer,
      runActs, handleRet, runEvs, step, resolve, forceRender]

/-- Witness for C9 at concrete substitutes, consumer 1 and delay 50. -/
theorem loading_delay_threshold_witness :
    ((50 : Nat) ≠ 0)
    ∧ (((resolveAsyncComponent ⟨[], .descriptor none (some (.options 5))
            (some 0) none⟩ 1 initRState).1.f.loading = true)
       ∧ ((resolveAsyncComponent ⟨[], .descriptor none (some (.options 5))
            (some 0) none⟩ 1 initRState).2 = some (ensureCtor (.options 5)))
       ∧ ((resolveAsyncComponent ⟨[], .descriptor none (some (.options 5))
            (some 50) none⟩ 1 initRState).1.delayTimer = some 50)
       ∧ ((resolveAsyncComponent ⟨[], .descriptor none (some (.options 5))
            (some 50) none⟩ 1 initRState).1.f.loading = false)
       ∧ ((resolveAsyncComponent ⟨[], .descriptor none (some (.options 5))
            none none⟩ 1 initRState).1.delayTimer = some 200)
       ∧ (∀ (p : Producer) (s : RState), s.delayTimer.isSome = true →
           s.f.resolved = none → s.f.error = false →
           (step p s .delayFired).f.loading = true
           ∧ (step p s .delayFired).forceUpdates
               = s.forceUpdates ++ s.f.contexts.getD [])
       ∧ (∀ (p : Producer) (s : RState) (evs : List Ev),
           s.f.resolved.isSome = true → s.f.loading = false →
           (runEvs p evs s).f.loading = false)
       ∧ ((runEvs delay50Producer [.settleRes (.options 7), .delayFired]
             (resolveAsyncComponent delay50Producer 1 initRState).1).f.loading
           = false)) :=
  ⟨by decide,
   loading_delay_threshold none (.options 5) (.options 7) none 1 50 (by decide)⟩

/-- C10 counterexample: after the loading-delay timer fires (one forced
re-evaluation, list kept), a failure with NO error substitute gives the
still-registered consumer no further forced re-evaluation at all — the
failure callback ran (guard consumed, diagnostic recorded) yet the
notification log still holds only the timer's single entry. -/
theorem loading_timer_then_fail_counterexample :
    ((runEvs delay50Producer [.delayFired, .settleRej]
        (resolveAsyncComponent delay50Producer 1 initRState).1).forceUpdates
      = [1])
    ∧ ((runEvs delay50Producer [.delayFired, .settleRej]
        (resolveAsyncComponent delay50Producer 1 initRState).1).rejectUsed
      = true)
    ∧ ((runEvs delay50Producer [.delayFired, .settleRej]
        (resolveAsyncComponent delay50Producer 1 initRState).1).warns = 1)
    ∧ ((runEvs delay50Producer [.delayFired, .settleRej]
        (resolveAsyncComponent delay50Producer 1 initRState).1).f.contexts
      = some [1]) := by
  refine ⟨?_, ?_, ?_, ?_⟩ <;> rfl

/-- C10 amended: the delay-timer forced re-evaluation never changes the
pending-consumers list, so every consumer registered before the timer fired
stays registered; a later asynchronous completion, or a failure with an
error substitute, notifies each of them once more and clears the list; a
failure without an error substitute leaves both the list and the
notification log untouched, giving them no further re-evaluation. -/
theorem loading_timer_keeps_consumers (p : Producer) (s : RState)
    (v : ResVal) (hru : s.rejectUsed = false) (hre : s.resolveUsed = false)
    (hsync : s.sync = false) :
    ((step p s .delayFired).f.contexts = s.f.contexts)
    ∧ ((resolve v s).f.contexts = some []
       ∧ (resolve v s).forceUpdates = s.forceUpdates ++ s.f.contexts.getD [])
    ∧ (s.f.errorComp.isSome = true →
        (reject s).f.contexts = some []
        ∧ (reject s).forceUpdates = s.forceUpdates ++ s.f.contexts.getD [])
    ∧ (s.f.errorComp.isSome = false →
        (reject s).f.contexts = s.f.contexts
        ∧ (reject s).forceUpdates = s.forceUpdates) := by
  refine ⟨?_, ?_, ?_, ?_⟩
  · cases hts : s.delayTimer with
    | none => simp [step, hts]
    | some dd =>
      simp only [step, hts]
      split
      · simp [forceRender]
      · rfl
  · simp [resolve, forceRender, hre, hsync]
  · intro he
    simp [reject, forceRender, hru, he]
  · intro he
    simp [reject, forceRender, hru, he]

/-- Witness for C10's amended statement at the post-first-call state of the
delay-50 producer. -/
theorem loading_timer_keeps_consumers_witness :
    ((resolveAsyncComponent delay50Producer 1 initRState).1.rejectUsed = false
     ∧ (resolveAsyncComponent delay50Producer 1 initRState).1.resolveUsed
        = false
     ∧ (resolveAsyncComponent delay50Producer 1 initRState).1.sync = false)
    ∧ (((step delay50Producer
          (resolveAsyncComponent delay50Producer 1 initRState).1
          .delayFired).f.contexts
        = (resolveAsyncComponent delay50Producer 1 initRState).1.f.contexts)
       ∧ ((resolve (.options 7)
            (resolveAsyncComponent delay50Producer 1 initRState).1).f.contexts
            = some []
          ∧ (resolve (.options 7)
              (resolveAsyncComponent delay50Producer 1 initRState).1).forceUpdates
            = (resolveAsyncComponent delay50Producer 1 initRState).1.forceUpdates
              ++ (resolveAsyncComponent delay50Producer 1
                    initRState).1.f.contexts.getD [])
       ∧ ((resolveAsyncComponent delay50Producer 1
              initRState).1.f.errorComp.isSome = true →
           (reject (resolveAsyncComponent delay50Producer 1
              initRState).1).f.contexts = some []
           ∧ (reject (resolveAsyncComponent delay50Producer 1
                initRState).1).forceUpdates
             = (resolveAsyncComponent delay50Producer 1
                  initRState).1.forceUpdates
               ++ (resolveAsyncComponent delay50Producer 1
                    initRState).1.f.contexts.getD [])
       ∧ ((resolveAsyncComponent delay50Producer 1
              initRState).1.f.errorComp.isSome = false →
           (reject (resolveAsyncComponent delay50Producer 1
              initRState).1).f.contexts
             = (resolveAsyncComponent delay50Producer 1
                  initRState).1.f.contexts
           ∧ (reject (resolveAsyncComponent delay50Producer 1
                initRState).1).forceUpdates
             = (resolveAsyncComponent delay50Producer 1
                  initRState).1.forceUpdates)) :=
  ⟨⟨rfl, rfl, rfl⟩,
   loading_timer_keeps_consumers delay50Producer
     (resolveAsyncComponent delay50Producer 1 initRState).1
     (.options 7) rfl rfl rfl⟩
